import Mathlib

/-!
Shallow embedding of the membership-activation CSV upload component
(src/src/components/Fileupload.tsx).

The component validates uploaded CSV rows with a zod schema, calls a remote
activation endpoint per valid row, and offers two CSV downloads.  The
embedding models:

  * JavaScript number coercion (the ToNumber applied by z.coerce.number),
    with NaN and the two infinities represented explicitly and finite
    values as exact rationals;
  * the zod schema csvSchema: nonempty string checks (length >= 1, no
    trimming), the email regex of zod v3, and numeric coercion followed by
    the NaN refinement (zod itself already rejects NaN at the type level,
    so the refinement never fires);
  * the per-row activation fetch with its try/catch (fetchActivationStatusForRow);
  * the row-processing forEach loop and the Promise.all fan-out of
    handleFileUpload, with the completion order of the concurrent lookups
    modelled as an explicit schedule writing into a result store;
  * a model of Papa.parse (header:true, skipEmptyLines:true, delimiter
    comma — the delimiter guess resolves to the default comma for all
    inputs considered here) and Papa.unparse;
  * the DOM side-effect traces of the two download handlers.
-/

/-! ## JavaScript numbers and ToNumber coercion -/

/-- A JavaScript number as far as the schema logic observes it: NaN, one of
the two infinities, or a finite value (kept exact as a rational; float
rounding is irrelevant to the validation logic, which only branches on
NaN-ness). -/
inductive JsNum where
  | nan : JsNum
  | inf : Bool → JsNum
  | num : ℚ → JsNum
deriving DecidableEq, Repr

/-- Number.isNaN on the modelled number domain. -/
def jsIsNaN : JsNum → Bool
  | JsNum.nan => true
  | _ => false

/-- The whitespace characters stripped by JS ToNumber on strings
(WhiteSpace and LineTerminator code points). -/
def isJsWhitespace (c : Char) : Bool :=
  c = ' ' || c = '\t' || c = '\n' || c = '\r' || c = '\x0b' || c = '\x0c' ||
  c = '\u00A0' || c = '\uFEFF' || c = '\u2028' || c = '\u2029'

/-- Value of a list of decimal digits (code point 48 is the zero digit). -/
def digitsVal (ds : List Char) : Nat :=
  ds.foldl (fun a c => 10 * a + (c.toNat - 48)) 0

/-- Exponent digits: one or more decimal digits consuming the whole input. -/
def expDigits (cs : List Char) : Option Nat :=
  if cs.isEmpty then none
  else if cs.all Char.isDigit then some (digitsVal cs) else none

/-- Signed exponent tail after the e/E marker. -/
def expTail (cs : List Char) : Option Int :=
  match cs with
  | '+' :: rest => (expDigits rest).map (fun n => (n : Int))
  | '-' :: rest => (expDigits rest).map (fun n => -(n : Int))
  | _ => (expDigits cs).map (fun n => (n : Int))

/-- Optional exponent part; must consume the whole remaining input. -/
def decExpPart (cs : List Char) : Option Int :=
  match cs with
  | [] => some 0
  | 'e' :: rest => expTail rest
  | 'E' :: rest => expTail rest
  | _ => none

/-- The exact value of a decimal literal with integer digits ip, fraction
digits fp and decimal exponent e.  The rational is assembled from an
integer mantissa and a power of ten (an integer whenever the exponent
reaches past the fraction). -/
def decimalRat (ip fp : List Char) (e : Int) : ℚ :=
  let mant : Nat := digitsVal ip * 10 ^ fp.length + digitsVal fp
  let shift : Int := e - (fp.length : Int)
  if 0 ≤ shift then ((mant * 10 ^ shift.toNat : Nat) : ℚ)
  else mkRat (mant : Int) (10 ^ (-shift).toNat)

/-- StrUnsignedDecimalLiteral (digits, optional fraction, optional
exponent; or fraction-first), consuming the whole input. -/
def decValue (cs : List Char) : Option ℚ :=
  let ip := cs.takeWhile Char.isDigit
  let r1 := cs.dropWhile Char.isDigit
  match r1 with
  | '.' :: r2 =>
    let fp := r2.takeWhile Char.isDigit
    let r3 := r2.dropWhile Char.isDigit
    if ip.isEmpty && fp.isEmpty then none
    else (decExpPart r3).map (fun e => decimalRat ip fp e)
  | _ =>
    if ip.isEmpty then none
    else (decExpPart r1).map (fun e => decimalRat ip [] e)

/-- Value of one digit in a non-decimal radix, if valid (code points 48-57
are the decimal digits, 97-102 and 65-70 the two hex letter ranges). -/
def radixDigitVal (radix : Nat) (c : Char) : Option Nat :=
  let n := c.toNat
  let v :=
    if 48 ≤ n && n ≤ 57 then some (n - 48)
    else if 97 ≤ n && n ≤ 102 then some (n - 87)
    else if 65 ≤ n && n ≤ 70 then some (n - 55)
    else none
  v.bind (fun d => if d < radix then some d else none)

/-- Non-decimal integer digits (after 0x / 0o / 0b), consuming everything. -/
def radixValue (radix : Nat) (cs : List Char) : Option Nat :=
  if cs.isEmpty then none
  else
    cs.foldl (fun acc c =>
      match acc, radixDigitVal radix c with
      | some a, some d => some (a * radix + d)
      | _, _ => none) (some 0)

/-- Unsigned numeric literal after an optional sign: Infinity or a decimal
literal; anything else is NaN. -/
def unsignedOrNaN (cs : List Char) (pos : Bool) : JsNum :=
  if cs = "Infinity".toList then JsNum.inf pos
  else
    match decValue cs with
    | some q => JsNum.num (if pos then q else -q)
    | none => JsNum.nan

/-- ToNumber on a whitespace-trimmed character list. -/
def jsToNumberChars (cs : List Char) : JsNum :=
  match cs with
  | [] => JsNum.num 0
  | '+' :: rest => unsignedOrNaN rest true
  | '-' :: rest => unsignedOrNaN rest false
  | '0' :: 'x' :: rest =>
    match radixValue 16 rest with
    | some n => JsNum.num (n : ℚ)
    | none => JsNum.nan
  | '0' :: 'X' :: rest =>
    match radixValue 16 rest with
    | some n => JsNum.num (n : ℚ)
    | none => JsNum.nan
  | '0' :: 'o' :: rest =>
    match radixValue 8 rest with
    | some n => JsNum.num (n : ℚ)
    | none => JsNum.nan
  | '0' :: 'O' :: rest =>
    match radixValue 8 rest with
    | some n => JsNum.num (n : ℚ)
    | none => JsNum.nan
  | '0' :: 'b' :: rest =>
    match radixValue 2 rest with
    | some n => JsNum.num (n : ℚ)
    | none => JsNum.nan
  | '0' :: 'B' :: rest =>
    match radixValue 2 rest with
    | some n => JsNum.num (n : ℚ)
    | none => JsNum.nan
  | _ => unsignedOrNaN cs true

/-- JavaScript Number(string): trim StrWhiteSpace; the empty remainder is 0;
otherwise parse a numeric literal, yielding NaN on failure. -/
def jsToNumber (s : String) : JsNum :=
  let cs := s.toList
  let trimmed := ((cs.dropWhile isJsWhitespace).reverse.dropWhile isJsWhitespace).reverse
  jsToNumberChars trimmed

/-! ## The zod v3 email pattern -/

/-- Characters allowed anywhere in the local part of the zod email regex. -/
def isLocalChar (c : Char) : Bool :=
  c.isAlphanum || c = '_' || c = '\'' || c = '+' || c = '-' || c = '.'

/-- Characters allowed as the final local-part character. -/
def isLocalEndChar (c : Char) : Bool :=
  c.isAlphanum || c = '_' || c = '+' || c = '-'

/-- Characters allowed after the first character of a domain label. -/
def isLabelChar (c : Char) : Bool :=
  c.isAlphanum || c = '-'

/-- No two consecutive dots anywhere in the string. -/
def noDoubleDot : List Char → Bool
  | '.' :: '.' :: _ => false
  | _ :: rest => noDoubleDot rest
  | [] => true

/-- Split a character list at every occurrence of the separator. -/
def splitOnChar (sep : Char) : List Char → List (List Char)
  | [] => [[]]
  | c :: rest =>
    let r := splitOnChar sep rest
    if c = sep then [] :: r
    else
      match r with
      | h :: t => (c :: h) :: t
      | [] => [[c]]

/-- A non-final domain label: starts alphanumeric, then alphanumerics or
hyphens. -/
def labelOk (cs : List Char) : Bool :=
  match cs with
  | [] => false
  | c :: rest => c.isAlphanum && rest.all isLabelChar

/-- The final top-level label: at least two letters. -/
def tldOk (cs : List Char) : Bool :=
  decide (2 ≤ cs.length) && cs.all Char.isAlpha

/-- The zod v3 email regex,
^(?!\.)(?!.*\.\.)([A-Z0-9_'+\-\.]*)[A-Z0-9_+-]@([A-Z0-9][A-Z0-9\-]*\.)+[A-Z]\x7b2,\x7d$
with the i flag, as a decision procedure. -/
def emailCheck (s : String) : Bool :=
  let whole := s.toList
  match splitOnChar '@' whole with
  | [lcs, dcs] =>
    (match whole with
     | '.' :: _ => false
     | _ => true) &&
    noDoubleDot whole &&
    (!lcs.isEmpty) && lcs.all isLocalChar &&
    (match lcs.getLast? with
     | some c => isLocalEndChar c
     | none => false) &&
    (let labels := splitOnChar '.' dcs
     decide (2 ≤ labels.length) && labels.dropLast.all labelOk &&
       (match labels.getLast? with
        | some t => tldOk t
        | none => false))
  | _ => false

/-! ## Data model (CsvRow, ExtendedCsvRow, raw input records) -/

/-- The validated row type of the source (interface CsvRow); the numeric
fields carry the coerced JavaScript numbers. -/
structure CsvRow where
  firstname : String
  lastname : String
  username : String
  uid : JsNum
  password : String
  email : String
  membershipplanid : JsNum
deriving DecidableEq, Repr

instance : Inhabited CsvRow :=
  ⟨⟨"", "", "", JsNum.nan, "", "", JsNum.nan⟩⟩

/-- interface ExtendedCsvRow extends CsvRow: the row annotated with its
activation status. -/
structure ExtendedCsvRow extends CsvRow where
  activationStatus : String
deriving DecidableEq, Repr

/-- A raw record as produced by Papa.parse with header:true: each of the
seven schema keys maps to the cell text, or to undefined (none) when the
row object lacks that key. -/
structure InputRecord where
  firstname : Option String
  lastname : Option String
  username : Option String
  uid : Option String
  password : Option String
  email : Option String
  membershipplanid : Option String
deriving DecidableEq, Repr

/-- An input record with all seven fields present, as delivered for a
well-formed CSV data row. -/
def mkRecord (a b c d pw em pl : String) : InputRecord :=
  ⟨some a, some b, some c, some d, some pw, some em, some pl⟩

/-! ## The zod schema csvSchema -/

/-- A single zod issue: the field path (always one key here, so kept as the
joined path text) and the message. -/
structure FieldError where
  path : String
  message : String
deriving DecidableEq, Repr

/-- z.string().nonempty(msg): undefined fails the type check with the
Required message; a present string fails the min(1) check exactly when its
length is below 1.  No trimming is performed. -/
def checkNonempty (p m : String) (v : Option String) : List FieldError :=
  match v with
  | none => [⟨p, "Required"⟩]
  | some s => if s.length < 1 then [⟨p, m⟩] else []

/-- Coercion applied by z.coerce.number(): Number of the input, with
Number(undefined) being NaN. -/
def coerceNum (v : Option String) : JsNum :=
  match v with
  | none => JsNum.nan
  | some s => jsToNumber s

/-- The z.coerce.number() field with its not-NaN refinement: the coerced
value is type-checked first (zod classifies NaN as parsed type nan, failing
with the invalid_type message), and only then is the NaN refinement run —
which therefore can never fire. -/
def checkNumber (p m : String) (v : Option String) : List FieldError :=
  let n := coerceNum v
  if jsIsNaN n then [⟨p, "Expected number, received nan"⟩]
  else if jsIsNaN n then [⟨p, m⟩] else []

/-- z.string().email("Invalid email format"). -/
def checkEmail (v : Option String) : List FieldError :=
  match v with
  | none => [⟨"email", "Required"⟩]
  | some s => if emailCheck s then [] else [⟨"email", "Invalid email format"⟩]

/-- The issues collected by csvSchema.safeParse, in shape-key order. -/
def fieldIssues (r : InputRecord) : List FieldError :=
  checkNonempty "firstname" "First name is required" r.firstname ++
  checkNonempty "lastname" "Last name is required" r.lastname ++
  checkNonempty "username" "Username is required" r.username ++
  checkNumber "uid" "UID must be a number" r.uid ++
  checkNonempty "password" "Password is required" r.password ++
  checkEmail r.email ++
  checkNumber "membershipplanid" "Membership Plan id must be a number" r.membershipplanid

/-- The parsed data produced on success: string fields as given, numeric
fields coerced. -/
def coerceRecord (r : InputRecord) : CsvRow :=
  ⟨r.firstname.getD "", r.lastname.getD "", r.username.getD "", coerceNum r.uid,
   r.password.getD "", r.email.getD "", coerceNum r.membershipplanid⟩

/-- csvSchema.safeParse: success with the coerced row when no field issues
arise, otherwise the full issue list. -/
def validateRecord (r : InputRecord) : Except (List FieldError) CsvRow :=
  match fieldIssues r with
  | [] => Except.ok (coerceRecord r)
  | es => Except.error es

/-! ## Activation lookup (fetchActivationStatusForRow) -/

/-- A JSON value as far as the === true comparison observes it. -/
inductive JsonVal where
  | bool : Bool → JsonVal
  | str : String → JsonVal
  | num : JsNum → JsonVal
  | null : JsonVal
  | undef : JsonVal
deriving DecidableEq, Repr

/-- The parsed response body; the response field is undefined when the JSON
object lacks it. -/
structure ApiResponse where
  response : JsonVal
deriving DecidableEq, Repr

/-- Outcome of one fetch + json() round trip: a parsed body, or any thrown
error (network failure or malformed JSON). -/
inductive FetchResult where
  | success : ApiResponse → FetchResult
  | failure : FetchResult
deriving DecidableEq, Repr

/-- fetchActivationStatusForRow: the try branch maps response === true to
Activated and anything else to Inactive; the catch branch swallows the
error and returns the row with status Error. -/
def fetchActivationStatusForRow (row : CsvRow) (outcome : FetchResult) : ExtendedCsvRow :=
  match outcome with
  | FetchResult.success result =>
    { toCsvRow := row,
      activationStatus := if result.response == JsonVal.bool true then "Activated" else "Inactive" }
  | FetchResult.failure =>
    { toCsvRow := row, activationStatus := "Error" }

/-! ## Row processor (the forEach loop of handleFileUpload) -/

/-- The error strings pushed for one failed row:
Row (index+1) - path: message, one per field issue. -/
def rowErrorStrings (idx : Nat) (errs : List FieldError) : List String :=
  errs.map (fun e => "Row " ++ toString (idx + 1) ++ " - " ++ e.path ++ ": " ++ e.message)

/-- One step of the forEach body: push the parsed row on success, push the
formatted error strings on failure. -/
def processStep (acc : List CsvRow × List String) (p : Nat × InputRecord) :
    List CsvRow × List String :=
  match validateRecord p.2 with
  | Except.ok v => (acc.1 ++ [v], acc.2)
  | Except.error errs => (acc.1, acc.2 ++ rowErrorStrings p.1 errs)

/-- The data.forEach((row, index) => ...) loop: traverses every record with
its 0-based index, accumulating validRows and errorList by pushing. -/
def processRows (records : List InputRecord) : List CsvRow × List String :=
  records.enum.foldl processStep ([], [])

/-! ## Batch orchestrator (Promise.all over the per-row fetches) -/

/-- The i-th lookup task of Promise.all(validRows.map(...)): annotates the
i-th row with the outcome of its own call. -/
def lookupTask (rows : List CsvRow) (oracle : Nat → FetchResult) (i : Nat) : ExtendedCsvRow :=
  fetchActivationStatusForRow (rows.getD i default) (oracle i)

/-- The result sequence Promise.all resolves with: positionally aligned to
the input rows, each row annotated by its own lookup outcome. -/
def batchAnnotate (rows : List CsvRow) (oracle : Nat → FetchResult) : List ExtendedCsvRow :=
  rows.enum.map (fun p => fetchActivationStatusForRow p.2 (oracle p.1))

/-- Completion-order semantics: each index in the schedule, as its lookup
completes, writes its annotated row into its own slot of the result store. -/
def writeAll (f : Nat → α) : List Nat → List (Option α) → List (Option α)
  | [], acc => acc
  | i :: rest, acc => writeAll f rest (acc.set i (some (f i)))

/-- Run the batch under an explicit completion schedule: the store starts
unfilled and each completing lookup writes its slot. -/
def runSchedule (rows : List CsvRow) (oracle : Nat → FetchResult) (order : List Nat) :
    List (Option ExtendedCsvRow) :=
  writeAll (lookupTask rows oracle) order (List.replicate rows.length none)

/-- Read the result store after the join: defined only once every slot has
been filled. -/
def collect : List (Option α) → Option (List α)
  | [] => some []
  | none :: _ => none
  | some a :: rest => (collect rest).map (a :: ·)

/-! ## Papa.parse / Papa.unparse model (delimiter comma) -/

/-- Character-level CSV reader (Papa core, delimiter comma, quote char
double quote): a quote at field start opens a quoted field, doubled quotes
inside it escape a literal quote, and CR, LF or CRLF end a row.  Fuel is
the remaining input length plus one, so it never runs out. -/
def csvRun : Nat → List Char → Bool → List Char → List String → List (List String) →
    List (List String)
  | 0, _, _, cur, fields, rows => rows ++ [fields ++ [String.mk cur.reverse]]
  | Nat.succ n, cs, quoted, cur, fields, rows =>
    if quoted then
      match cs with
      | [] => rows ++ [fields ++ [String.mk cur.reverse]]
      | '"' :: '"' :: rest => csvRun n rest true ('"' :: cur) fields rows
      | '"' :: rest => csvRun n rest false cur fields rows
      | c :: rest => csvRun n rest true (c :: cur) fields rows
    else
      match cs with
      | [] => rows ++ [fields ++ [String.mk cur.reverse]]
      | ',' :: rest => csvRun n rest false [] (fields ++ [String.mk cur.reverse]) rows
      | '\r' :: '\n' :: rest =>
        csvRun n rest false [] [] (rows ++ [fields ++ [String.mk cur.reverse]])
      | '\n' :: rest => csvRun n rest false [] [] (rows ++ [fields ++ [String.mk cur.reverse]])
      | '\r' :: rest => csvRun n rest false [] [] (rows ++ [fields ++ [String.mk cur.reverse]])
      | '"' :: rest =>
        if cur.isEmpty then csvRun n rest true cur fields rows
        else csvRun n rest false ('"' :: cur) fields rows
      | c :: rest => csvRun n rest false (c :: cur) fields rows

/-- All raw rows of the CSV text. -/
def parseCSVRows (text : String) : List (List String) :=
  let cs := text.toList
  csvRun (cs.length + 1) cs false [] [] []

/-- Papa's skipEmptyLines test: a row is empty when it is a single empty
cell. -/
def isEmptyLine (r : List String) : Bool :=
  r == [""]

/-- Papa.parse with header:true and skipEmptyLines:true: empty lines are
dropped first, then the first remaining row becomes meta.fields and the
rest become the data rows; with no rows at all, meta.fields is undefined. -/
def papaParseModel (text : String) : Option (List String) × List (List String) :=
  match (parseCSVRows text).filter (fun r => !isEmptyLine r) with
  | [] => (none, [])
  | h :: t => (some h, t)

/-- Building one row object: each schema key gets the cell under the
matching detected header, or undefined when no header matches. -/
def lookupField (fields vals : List String) (key : String) : Option String :=
  ((fields.zip vals).find? (fun p => p.1 == key)).map (fun p => p.2)

/-- The row object Papa hands to the validator, restricted to the seven
schema keys (zod strips unknown keys such as __parsed_extra). -/
def toRecord (fields vals : List String) : InputRecord :=
  ⟨lookupField fields vals "firstname", lookupField fields vals "lastname",
   lookupField fields vals "username", lookupField fields vals "uid",
   lookupField fields vals "password", lookupField fields vals "email",
   lookupField fields vals "membershipplanid"⟩

/-- A field needs quoting in Papa.unparse when it contains the quote char,
the delimiter or a line break, or has leading or trailing spaces. -/
def needsQuotes (s : String) : Bool :=
  s.toList.any (fun c => c = '"' || c = ',' || c = '\n' || c = '\r') ||
  (match s.toList with
   | ' ' :: _ => true
   | _ => false) ||
  (s.toList.getLast? == some ' ')

/-- Quote a field, doubling embedded quote characters. -/
def quoteField (s : String) : String :=
  "\"" ++ String.mk (s.toList.foldr (fun c acc => if c = '"' then '"' :: '"' :: acc else c :: acc) []) ++ "\""

/-- Serialize one field. -/
def unparseField (s : String) : String :=
  if needsQuotes s then quoteField s else s

/-- Papa.unparse: comma-joined fields, CRLF-joined rows, no trailing
newline. -/
def papaUnparse (rows : List (List String)) : String :=
  String.intercalate "\r\n" (rows.map (fun r => String.intercalate "," (r.map unparseField)))

/-! ## The upload pipeline (handleFileUpload) and component state -/

/-- The expected header sequence. -/
def expectedHeaders : List String :=
  ["firstname", "lastname", "username", "uid", "password", "email", "membershipplanid"]

/-- The single header-mismatch error message. -/
def headerErrorMsg : String :=
  "CSV header does not match expected order. Expected: " ++
    String.intercalate ", " expectedHeaders

/-- The observable outcome of one upload: the two state writes and the
number of network calls issued. -/
structure UploadResult where
  validatedData : List ExtendedCsvRow
  errors : List String
  networkCalls : Nat
deriving DecidableEq, Repr

/-- The complete callback of handleFileUpload: if meta.fields is absent or
its comma-join differs from the comma-join of the expected headers, set the
single error, clear the results and stop before any network call; otherwise
validate every decoded row, store the error list, and annotate the valid
rows through the concurrent lookups (one call per valid row). -/
def handleFileUploadModel (text : String) (oracle : Nat → FetchResult) : UploadResult :=
  let parsed := papaParseModel text
  match parsed.1 with
  | none => ⟨[], [headerErrorMsg], 0⟩
  | some fields =>
    if String.intercalate "," fields == String.intercalate "," expectedHeaders then
      let records := parsed.2.map (fun vals => toRecord fields vals)
      let pr := processRows records
      ⟨batchAnnotate pr.1 oracle, pr.2, pr.1.length⟩
    else ⟨[], [headerErrorMsg], 0⟩

/-- The detected header row of an upload, joined with commas — the text the
source actually compares. -/
def detectedHeaderJoin (text : String) : Option String :=
  (papaParseModel text).1.map (String.intercalate ",")

/-- The component state written by the handlers. -/
structure ComponentState where
  validatedData : List ExtendedCsvRow
  errors : List String
deriving DecidableEq, Repr

/-- handleClear: discard both collections. -/
def handleClear (_s : ComponentState) : ComponentState :=
  ⟨[], []⟩

/-! ## Download handlers as DOM-effect traces -/

/-- The externally visible DOM and URL effects a download handler can
perform. -/
inductive DomEvent where
  | createObjectURL : DomEvent
  | appendChild : DomEvent
  | click : DomEvent
  | removeChild : DomEvent
  | revokeObjectURL : DomEvent
deriving DecidableEq, Repr

/-- handleDownloadHeaderCSV: builds the header CSV, creates an object URL,
attaches a hidden link, clicks it and removes the link.  No revocation of
the object URL appears in the source. -/
def handleDownloadHeaderCSVEvents : List DomEvent :=
  [DomEvent.createObjectURL, DomEvent.appendChild, DomEvent.click, DomEvent.removeChild]

/-- handleDownloadCSV: returns immediately with no effect when the result
collection is empty; otherwise same effect sequence as the header download,
again with no revocation of the object URL. -/
def handleDownloadCSVEvents (validatedData : List ExtendedCsvRow) : List DomEvent :=
  if validatedData.length = 0 then []
  else [DomEvent.createObjectURL, DomEvent.appendChild, DomEvent.click, DomEvent.removeChild]

/-! ## Helper lemmas -/

theorem string_length_lt_one_iff (s : String) : s.length < 1 ↔ s = "" := by
  constructor
  · intro h
    have h0 : s.length = 0 := Nat.lt_one_iff.mp h
    cases s with
    | mk data =>
      have hd : data = [] := List.length_eq_zero.mp h0
      subst hd
      rfl
  · intro h
    subst h
    decide

/-- Whether safeParse reports an issue with the given path and message. -/
def hasIssue (r : InputRecord) (p m : String) : Bool :=
  (fieldIssues r).any (fun e => e.path == p && e.message == m)

theorem any_checkNonempty (p m q mm s : String) :
    (checkNonempty p m (some s)).any (fun e => e.path == q && e.message == mm) =
      ((s == "") && (p == q) && (m == mm)) := by
  simp only [checkNonempty]
  split
  · next h =>
    have hs : s = "" := (string_length_lt_one_iff s).mp h
    subst hs
    simp [Bool.and_assoc]
  · next h =>
    have hs : s ≠ "" := by
      intro hh
      exact h ((string_length_lt_one_iff s).mpr hh)
    have hb : (s == "") = false := beq_eq_false_iff_ne.mpr hs
    simp [hb]

theorem any_checkNumber (p m q mm : String) (v : Option String) :
    (checkNumber p m v).any (fun e => e.path == q && e.message == mm) =
      (jsIsNaN (coerceNum v) && (p == q) && ("Expected number, received nan" == mm)) := by
  unfold checkNumber
  cases h : jsIsNaN (coerceNum v) <;> simp [h, Bool.and_assoc]

theorem any_checkEmail (q mm s : String) :
    (checkEmail (some s)).any (fun e => e.path == q && e.message == mm) =
      ((!emailCheck s) && ("email" == q) && ("Invalid email format" == mm)) := by
  unfold checkEmail
  cases h : emailCheck s <;> simp [h, Bool.and_assoc]

theorem fieldIssues_mkRecord_any (a b c d pw em pl q mm : String) :
    (fieldIssues (mkRecord a b c d pw em pl)).any (fun e => e.path == q && e.message == mm) =
      (((a == "") && ("firstname" == q) && ("First name is required" == mm)) ||
       ((b == "") && ("lastname" == q) && ("Last name is required" == mm)) ||
       ((c == "") && ("username" == q) && ("Username is required" == mm)) ||
       (jsIsNaN (jsToNumber d) && ("uid" == q) && ("Expected number, received nan" == mm)) ||
       ((pw == "") && ("password" == q) && ("Password is required" == mm)) ||
       ((!emailCheck em) && ("email" == q) && ("Invalid email format" == mm)) ||
       (jsIsNaN (jsToNumber pl) && ("membershipplanid" == q) &&
         ("Expected number, received nan" == mm))) := by
  show (checkNonempty "firstname" "First name is required" (some a) ++
      checkNonempty "lastname" "Last name is required" (some b) ++
      checkNonempty "username" "Username is required" (some c) ++
      checkNumber "uid" "UID must be a number" (some d) ++
      checkNonempty "password" "Password is required" (some pw) ++
      checkEmail (some em) ++
      checkNumber "membershipplanid" "Membership Plan id must be a number" (some pl)).any
      (fun e => e.path == q && e.message == mm) = _
  rw [List.any_append, List.any_append, List.any_append, List.any_append, List.any_append,
    List.any_append, any_checkNonempty, any_checkNonempty, any_checkNonempty, any_checkNumber,
    any_checkNonempty, any_checkEmail, any_checkNumber]
  simp [coerceNum, Bool.or_assoc]

/-! ## Claim C2 -/

/-- Claim C2 (amended): for every input record, the schema validator fails
firstname, lastname, username and password with their EmptyField-style
issue exactly when the field value is the empty string — the check does not
trim, so whitespace-only values are accepted. -/
theorem c2_empty_field_checks (a b c d pw em pl : String) :
    (hasIssue (mkRecord a b c d pw em pl) "firstname" "First name is required" = (a == "")) ∧
    (hasIssue (mkRecord a b c d pw em pl) "lastname" "Last name is required" = (b == "")) ∧
    (hasIssue (mkRecord a b c d pw em pl) "username" "Username is required" = (c == "")) ∧
    (hasIssue (mkRecord a b c d pw em pl) "password" "Password is required" = (pw == "")) := by
  refine ⟨?_, ?_, ?_, ?_⟩ <;>
    simp [hasIssue, fieldIssues_mkRecord_any]

/-- Claim C2 counterexample: a record whose firstname is a single space —
nonempty but consisting only of whitespace, so its trimmed value is empty —
produces no validation issue at all and is accepted. -/
theorem c2_whitespace_accepted :
    (" ".toList.all Char.isWhitespace = true ∧ " " ≠ "") ∧
    fieldIssues (mkRecord " " "b" "c" "1" "d" "a@b.com" "2") = [] ∧
    (validateRecord (mkRecord " " "b" "c" "1" "d" "a@b.com" "2")).isOk = true := by
  exact ⟨⟨rfl, by decide⟩, rfl, rfl⟩

/-! ## Claim C3 -/

/-- Claim C3 (amended): the numeric fields uid and membershipplanid fail
with the NaN-typed issue exactly when JavaScript number coercion of the
field text yields NaN; a coercion result of Infinity is not rejected, since
the schema never checks finiteness. -/
theorem c3_numeric_coercion_checks (a b c d pw em pl : String) :
    (hasIssue (mkRecord a b c d pw em pl) "uid" "Expected number, received nan" =
      jsIsNaN (jsToNumber d)) ∧
    (hasIssue (mkRecord a b c d pw em pl) "membershipplanid" "Expected number, received nan" =
      jsIsNaN (jsToNumber pl)) := by
  refine ⟨?_, ?_⟩ <;>
    simp [hasIssue, fieldIssues_mkRecord_any]

/-- Claim C3 counterexample: the text Infinity coerces to a non-finite
number, yet the record passes validation with uid kept as Infinity. -/
theorem c3_infinity_accepted :
    jsToNumber "Infinity" = JsNum.inf true ∧
    validateRecord (mkRecord "a" "b" "c" "Infinity" "d" "a@b.com" "2") =
      Except.ok ⟨"a", "b", "c", JsNum.inf true, "d", "a@b.com", jsToNumber "2"⟩ := by
  exact ⟨rfl, rfl⟩

/-! ## Claim C9 -/

/-- Claim C9: for every record whose uid or membershipplanid text is empty
and whose other fields satisfy their constraints, validation succeeds —
empty text coerces to the number 0 rather than failing — and whichever
numeric field was empty carries the value 0 in the validated row. -/
theorem c9_empty_numeric_is_zero (a b c d pw em pl : String)
    (ha : a ≠ "") (hb : b ≠ "") (hc : c ≠ "") (hpw : pw ≠ "")
    (hem : emailCheck em = true)
    (hd : jsIsNaN (jsToNumber d) = false) (hpl : jsIsNaN (jsToNumber pl) = false)
    (hor : d = "" ∨ pl = "") :
    validateRecord (mkRecord a b c d pw em pl) =
      Except.ok ⟨a, b, c, jsToNumber d, pw, em, jsToNumber pl⟩ ∧
    (d = "" → jsToNumber d = JsNum.num 0) ∧
    (pl = "" → jsToNumber pl = JsNum.num 0) := by
  have la : ¬ a.length < 1 := fun h => ha ((string_length_lt_one_iff a).mp h)
  have lb : ¬ b.length < 1 := fun h => hb ((string_length_lt_one_iff b).mp h)
  have lc : ¬ c.length < 1 := fun h => hc ((string_length_lt_one_iff c).mp h)
  have lpw : ¬ pw.length < 1 := fun h => hpw ((string_length_lt_one_iff pw).mp h)
  have hz : fieldIssues (mkRecord a b c d pw em pl) = [] := by
    simp [fieldIssues, mkRecord, checkNonempty, checkNumber, checkEmail, coerceNum,
      la, lb, lc, lpw, hem, hd, hpl]
  refine ⟨?_, ?_, ?_⟩
  · unfold validateRecord
    rw [hz]
    rfl
  · intro h
    subst h
    rfl
  · intro h
    subst h
    rfl

/-- Witness for C9: both of the claim's cases — an empty uid beside a
nonempty plan id, and an empty plan id beside a nonempty uid — validate
with 0 in the empty field. -/
theorem c9_empty_numeric_is_zero_witness :
    ((validateRecord (mkRecord "John" "Doe" "jd" "" "pw" "a@b.com" "7") =
        Except.ok ⟨"John", "Doe", "jd", jsToNumber "", "pw", "a@b.com", jsToNumber "7"⟩) ∧
      ("" = "" → jsToNumber "" = JsNum.num 0) ∧
      ("7" = "" → jsToNumber "7" = JsNum.num 0)) ∧
    ((validateRecord (mkRecord "Jane" "Roe" "jr" "5" "pw" "a@b.com" "") =
        Except.ok ⟨"Jane", "Roe", "jr", jsToNumber "5", "pw", "a@b.com", jsToNumber ""⟩) ∧
      ("5" = "" → jsToNumber "5" = JsNum.num 0) ∧
      ("" = "" → jsToNumber "" = JsNum.num 0)) :=
  ⟨c9_empty_numeric_is_zero "John" "Doe" "jd" "" "pw" "a@b.com" "7"
      (by decide) (by decide) (by decide) (by decide) (by decide) (by decide) (by decide)
      (Or.inl rfl),
   c9_empty_numeric_is_zero "Jane" "Roe" "jr" "5" "pw" "a@b.com" ""
      (by decide) (by decide) (by decide) (by decide) (by decide) (by decide) (by decide)
      (Or.inr rfl)⟩

/-! ## Claim C1 -/

/-- Claim C1: the activation lookup is total on every fetch outcome (the
catch clause swallows any failure): a body whose response field is the
boolean true yields Activated, any other parsed body yields Inactive, and
any thrown failure yields Error; the underlying row is kept unchanged. -/
theorem c1_activation_lookup (row : CsvRow) (outcome : FetchResult) :
    (fetchActivationStatusForRow row outcome).toCsvRow = row ∧
    (outcome = FetchResult.failure →
      (fetchActivationStatusForRow row outcome).activationStatus = "Error") ∧
    (∀ r, outcome = FetchResult.success r → r.response = JsonVal.bool true →
      (fetchActivationStatusForRow row outcome).activationStatus = "Activated") ∧
    (∀ r, outcome = FetchResult.success r → r.response ≠ JsonVal.bool true →
      (fetchActivationStatusForRow row outcome).activationStatus = "Inactive") := by
  cases outcome with
  | failure =>
    refine ⟨rfl, fun _ => rfl, ?_, ?_⟩
    · intro r h hr
      exact FetchResult.noConfusion h
    · intro r h hr
      exact FetchResult.noConfusion h
  | success r =>
    refine ⟨rfl, fun h => FetchResult.noConfusion h, ?_, ?_⟩
    · intro r' h hr
      cases h
      simp [fetchActivationStatusForRow, hr]
    · intro r' h hr
      cases h
      simp [fetchActivationStatusForRow, beq_eq_false_iff_ne.mpr hr]

/-- Witness for C1 on the three outcome shapes at a concrete row. -/
theorem c1_activation_lookup_witness :
    (fetchActivationStatusForRow default
        (FetchResult.success ⟨JsonVal.bool true⟩)).activationStatus = "Activated" ∧
    (fetchActivationStatusForRow default
        (FetchResult.success ⟨JsonVal.bool false⟩)).activationStatus = "Inactive" ∧
    (fetchActivationStatusForRow default FetchResult.failure).activationStatus = "Error" :=
  ⟨(c1_activation_lookup default (FetchResult.success ⟨JsonVal.bool true⟩)).2.2.1
      ⟨JsonVal.bool true⟩ rfl rfl,
   (c1_activation_lookup default (FetchResult.success ⟨JsonVal.bool false⟩)).2.2.2
      ⟨JsonVal.bool false⟩ rfl (by decide),
   (c1_activation_lookup default FetchResult.failure).2.1 rfl⟩

/-! ## Claim C6 -/

/-- The error strings one indexed record contributes: none on success, one
per field issue on failure. -/
def errOf (p : Nat × InputRecord) : List String :=
  match validateRecord p.2 with
  | Except.ok _ => []
  | Except.error errs => rowErrorStrings p.1 errs

theorem processStep_fold (l : List (Nat × InputRecord)) (acc : List CsvRow × List String) :
    l.foldl processStep acc =
      (acc.1 ++ l.filterMap (fun p => (validateRecord p.2).toOption),
       acc.2 ++ (l.map errOf).flatten) := by
  induction l generalizing acc with
  | nil => simp
  | cons p l ih =>
    rw [List.foldl_cons, ih]
    unfold processStep errOf
    cases h : validateRecord p.2 with
    | ok v => simp [h, Except.toOption, List.filterMap_cons]
    | error errs => simp [h, Except.toOption, List.filterMap_cons]

/-- Claim C6: the forEach loop validates every record independently; its
first output is exactly the successfully validated rows in original order
with the index discarded, and its second output is exactly one error string
per individual field failure, of the form
Row (1-based index) - (field path): (message). -/
theorem c6_row_processor (records : List InputRecord) :
    (processRows records).1 = records.filterMap (fun r => (validateRecord r).toOption) ∧
    (processRows records).2 = (records.enum.map (fun p =>
      match validateRecord p.2 with
      | Except.ok _ => []
      | Except.error errs =>
        errs.map (fun e =>
          "Row " ++ toString (p.1 + 1) ++ " - " ++ e.path ++ ": " ++ e.message))).flatten := by
  unfold processRows
  rw [processStep_fold]
  constructor
  · show records.enum.filterMap (fun p => (validateRecord p.2).toOption) = _
    rw [show (fun p : Nat × InputRecord => (validateRecord p.2).toOption) =
      ((fun r => (validateRecord r).toOption) ∘ Prod.snd) from rfl]
    rw [← List.filterMap_map, List.enum_map_snd]
  · show (records.enum.map errOf).flatten = _
    rfl

/-! ## Claim C5 -/

theorem writeAll_length (f : Nat → α) (ord : List Nat) (acc : List (Option α)) :
    (writeAll f ord acc).length = acc.length := by
  induction ord generalizing acc with
  | nil => rfl
  | cons i rest ih =>
    rw [writeAll, ih, List.length_set]

theorem writeAll_getElem? (f : Nat → α) (ord : List Nat) (acc : List (Option α))
    (hlt : ∀ i ∈ ord, i < acc.length) (j : Nat) :
    (writeAll f ord acc)[j]? = if j ∈ ord then some (some (f j)) else acc[j]? := by
  induction ord generalizing acc with
  | nil => simp [writeAll]
  | cons i rest ih =>
    rw [writeAll]
    have hlt' : ∀ k ∈ rest, k < (acc.set i (some (f i))).length := by
      intro k hk
      rw [List.length_set]
      exact hlt k (List.mem_cons_of_mem i hk)
    rw [ih _ hlt']
    by_cases hjr : j ∈ rest
    · simp [hjr, List.mem_cons]
    · by_cases hji : j = i
      · subst hji
        have : j < acc.length := hlt j (List.mem_cons_self j rest)
        simp [hjr, List.getElem?_set_eq_of_lt _ this]
      · have : i ≠ j := fun h => hji h.symm
        simp [hjr, hji, List.getElem?_set_ne this]

theorem collect_map_some (l : List α) : collect (l.map some) = some l := by
  induction l with
  | nil => rfl
  | cons a l ih => simp [collect, ih]

theorem batchAnnotate_eq_range_map (rows : List CsvRow) (oracle : Nat → FetchResult) :
    batchAnnotate rows oracle = (List.range rows.length).map (lookupTask rows oracle) := by
  apply List.ext_getElem
  · simp [batchAnnotate, List.enum_length]
  · intro i h1 h2
    have hi : i < rows.length := by
      simpa [batchAnnotate, List.enum_length] using h1
    simp only [batchAnnotate, List.getElem_map, List.getElem_enum, List.getElem_range]
    rw [lookupTask, List.getD_eq_getElem _ _ hi]

theorem runSchedule_eq (rows : List CsvRow) (oracle : Nat → FetchResult) (order : List Nat)
    (hperm : order.Perm (List.range rows.length)) :
    runSchedule rows oracle order = (batchAnnotate rows oracle).map some := by
  have hmem : ∀ j, j ∈ order ↔ j < rows.length := by
    intro j
    rw [hperm.mem_iff, List.mem_range]
  rw [batchAnnotate_eq_range_map, List.map_map]
  apply List.ext_getElem?
  intro j
  rw [runSchedule, writeAll_getElem?]
  · rw [List.getElem?_map]
    by_cases hj : j < rows.length
    · rw [List.getElem?_range hj]
      simp [(hmem j).mpr hj]
    · have h1 : j ∉ order := fun h => hj ((hmem j).mp h)
      have h2 : (List.range rows.length)[j]? = none := by
        rw [List.getElem?_eq_none]
        rw [List.length_range]
        omega
      simp [h1, h2, List.getElem?_replicate, hj]
  · intro i hi
    rw [List.length_replicate]
    exact (hmem i).mp hi

/-- Claim C5: under any completion order that runs each lookup exactly once
(a permutation of the row indices), the joined result sequence is fully
filled and equals the positionally aligned annotation of the input rows —
order is preserved by construction, each lookup runs once per row, and zero
rows yield an empty schedule, zero lookups and an empty output. -/
theorem c5_batch_orchestrator (rows : List CsvRow) (oracle : Nat → FetchResult)
    (order : List Nat) (hperm : order.Perm (List.range rows.length)) :
    collect (runSchedule rows oracle order) = some (batchAnnotate rows oracle) ∧
    (∀ i, i < rows.length → order.count i = 1) ∧
    (rows = [] → order = [] ∧ batchAnnotate rows oracle = []) := by
  refine ⟨?_, ?_, ?_⟩
  · rw [runSchedule_eq rows oracle order hperm, collect_map_some]
  · intro i hi
    rw [hperm.count_eq]
    exact List.count_eq_one_of_mem (List.nodup_range _) (List.mem_range.mpr hi)
  · intro hrows
    subst hrows
    refine ⟨hperm.eq_nil, rfl⟩

/-- Witness for C5: two rows completing in reversed order still produce the
input-ordered output. -/
theorem c5_batch_orchestrator_witness :
    collect (runSchedule [default, default] (fun _ => FetchResult.failure) [1, 0]) =
      some (batchAnnotate [default, default] (fun _ => FetchResult.failure)) :=
  (c5_batch_orchestrator [default, default] (fun _ => FetchResult.failure) [1, 0]
    (by decide)).1

/-! ## Claim C4 -/

/-- Claim C4 (amended): for every input CSV text whose detected header
names, joined with commas, differ from the expected comma-joined header
text (the source compares the joined strings, not the header list itself),
the upload produces exactly one error message naming the expected header
order, decodes zero rows, clears any previously held results, and makes
zero network calls. -/
theorem c4_header_mismatch (text : String) (oracle : Nat → FetchResult)
    (h : detectedHeaderJoin text ≠ some (String.intercalate "," expectedHeaders)) :
    handleFileUploadModel text oracle = ⟨[], [headerErrorMsg], 0⟩ := by
  unfold detectedHeaderJoin at h
  rcases hpp : papaParseModel text with ⟨fo, rows⟩
  rw [hpp] at h
  cases fo with
  | none => simp [handleFileUploadModel, hpp]
  | some fields =>
    have hne : String.intercalate "," fields ≠ String.intercalate "," expectedHeaders := by
      intro he
      exact h (by simp [he])
    simp [handleFileUploadModel, hpp, beq_eq_false_iff_ne.mpr hne]

/-- Witness for C4 at a concrete wrong-header upload. -/
theorem c4_header_mismatch_witness :
    handleFileUploadModel "uid,firstname" (fun _ => FetchResult.failure) =
      ⟨[], [headerErrorMsg], 0⟩ :=
  c4_header_mismatch "uid,firstname" (fun _ => FetchResult.failure) (by decide)

/-- Claim C4 counterexample: a CSV whose single header cell is the quoted
text of all seven expected names separated by commas.  The detected header
list (one column) differs from the expected seven-name sequence, yet its
comma-join equals the expected join, so the upload accepts the header and
reports no error at all instead of the claimed single mismatch message. -/
theorem c4_quoted_header_counterexample :
    (papaParseModel
        "\"firstname,lastname,username,uid,password,email,membershipplanid\"").1 ≠
      some expectedHeaders ∧
    (handleFileUploadModel
        "\"firstname,lastname,username,uid,password,email,membershipplanid\""
        (fun _ => FetchResult.failure)).errors = [] := by
  exact ⟨by decide, rfl⟩

/-! ## Claim C7 -/

/-- Claim C7: serializing the header template and re-decoding it succeeds —
the detected header equals the expected sequence (so the header check
passes and no mismatch error is produced) and zero data rows are decoded. -/
theorem c7_header_roundtrip :
    papaParseModel (papaUnparse [expectedHeaders]) = (some expectedHeaders, []) ∧
    (handleFileUploadModel (papaUnparse [expectedHeaders])
        (fun _ => FetchResult.failure)).errors = [] ∧
    (handleFileUploadModel (papaUnparse [expectedHeaders])
        (fun _ => FetchResult.failure)).validatedData = [] := by
  exact ⟨by decide, rfl, rfl⟩

/-! ## Claim C8 -/

/-- Claim C8 does not hold of the code: both download handlers create an
object URL but neither ever revokes it — on the empty-collection path of
the result download nothing is created, yet on every producing path the
created handle is never released. -/
theorem c8_object_url_never_revoked :
    handleDownloadHeaderCSVEvents.contains DomEvent.createObjectURL = true ∧
    handleDownloadHeaderCSVEvents.contains DomEvent.revokeObjectURL = false ∧
    (handleDownloadCSVEvents
        [{ toCsvRow := default, activationStatus := "Activated" }]).contains
      DomEvent.createObjectURL = true ∧
    (handleDownloadCSVEvents
        [{ toCsvRow := default, activationStatus := "Activated" }]).contains
      DomEvent.revokeObjectURL = false ∧
    handleDownloadCSVEvents [] = [] := by
  decide

/-! ## Claim C10 -/

/-- The retained-state invariant: a stored row's activation status is one
of the three legal values. -/
def statusOK (r : ExtendedCsvRow) : Bool :=
  r.activationStatus == "Activated" || r.activationStatus == "Inactive" ||
    r.activationStatus == "Error"

theorem statusOK_fetch (row : CsvRow) (outcome : FetchResult) :
    statusOK (fetchActivationStatusForRow row outcome) = true := by
  cases outcome with
  | failure => rfl
  | success r =>
    unfold fetchActivationStatusForRow statusOK
    by_cases h : r.response == JsonVal.bool true <;> simp [h]

theorem statusOK_batchAnnotate (rows : List CsvRow) (oracle : Nat → FetchResult) :
    (batchAnnotate rows oracle).all statusOK = true := by
  rw [List.all_eq_true]
  intro x hx
  rw [batchAnnotate] at hx
  obtain ⟨p, _, hpx⟩ := List.mem_map.mp hx
  rw [← hpx]
  exact statusOK_fetch p.2 (oracle p.1)

/-- Claim C10: every operation that writes the annotated-row collection
leaves every stored row with an activation status among Activated, Inactive
and Error — clearing empties it, a header mismatch resets it to empty, and
a successful upload fills it only with statuses produced by the lookup. -/
theorem c10_status_invariant :
    (∀ s : ComponentState, (handleClear s).validatedData.all statusOK = true) ∧
    (∀ (text : String) (oracle : Nat → FetchResult),
      (handleFileUploadModel text oracle).validatedData.all statusOK = true) := by
  refine ⟨fun s => rfl, ?_⟩
  intro text oracle
  rcases hpp : papaParseModel text with ⟨fo, rows⟩
  cases fo with
  | none => simp [handleFileUploadModel, hpp]
  | some fields =>
    by_cases hj : String.intercalate "," fields = String.intercalate "," expectedHeaders
    · simp only [handleFileUploadModel, hpp, hj, beq_self_eq_true, if_true]
      exact statusOK_batchAnnotate _ oracle
    · simp [handleFileUploadModel, hpp, beq_eq_false_iff_ne.mpr hj]
